import Mathlib

/-!
Shallow embedding of `src/train.py` (repository `gnn_shap`).

The file models the training orchestration of `main` (train.py lines
67-226): the per-round three-phase loop with its `set_dlabel` call, the
per-batch GNN substitution repeated in each phase (lines 126-139,
149-162, 181-194), the best-validation / target-accuracy tracking
(lines 80, 212-214), the batch-size derivation (lines 73-76), the final
report (line 218) followed by the optional SHAP block (lines 221-226),
and the explainability runner `explain_gnn_with_shap` (lines 23-56).

External collaborators (the adaptation algorithm, the data loaders, the
correlation-graph builder, the GNN encoder, the SHAP library, the
evaluator) are modelled as abstract function parameters; their outputs
(loss dictionaries, accuracies, graphs, embeddings) are abstract values.
Accuracies are rationals, standing in for the real-valued accuracies of
`modelopera.accuracy`.
-/

namespace TrainPy

/-- Abstract tensor: a shape together with a payload tag distinguishing
tensor values.  Only the shape is inspected by the orchestration code
(train.py line 128). -/
structure Tensor where
  shape : List Nat
  payload : Nat
deriving DecidableEq

/-- A value flowing through the training loop: either a bare tensor or a
tuple/list of tensors (the loader's `(x, y, d, ...)` batches).  Python
lists and tuples behave identically under the `isinstance(data, (list,
tuple))` tests at lines 127 and 136, so one constructor models both. -/
inductive PyVal where
  | tens (t : Tensor)
  | tup (elems : List Tensor)
deriving DecidableEq

/-- A correlation graph produced by `build_correlation_graph`
(external, `models.gnn_extractor`); identified only by a tag. -/
structure Graph where
  gid : Nat
deriving DecidableEq

/-- The external graph pipeline: the `build_correlation_graph` builder
and the `TemporalGCN` encoder `gnn`, as abstract functions.  The encoder
is applied to the single full batch produced by
`GeoDataLoader(gnn_graphs, batch_size=len(gnn_graphs))`. -/
structure GnnEnv where
  build_correlation_graph : Tensor → List Graph
  gnn : List Graph → Tensor

/-- `batch_x.squeeze(2)`: drops axis 2 of the shape (train.py line 129;
the guard at line 128 ensures axis 2 exists and is 1). -/
def squeeze2 (t : Tensor) : Tensor :=
  { shape := t.shape.eraseIdx 2, payload := t.payload }

/-- Lines 128-129: `if len(batch_x.shape) == 4 and batch_x.shape[2] == 1:
batch_x = batch_x.squeeze(2)`. -/
def condSqueeze (t : Tensor) : Tensor :=
  if t.shape.length = 4 ∧ t.shape.getD 2 0 = 1 then squeeze2 t else t

/-- Line 127: `batch_x = data[0] if isinstance(data, (list, tuple)) else
data`.  `data[0]` on an empty tuple/list raises IndexError, modelled as
`none`. -/
def getBatchX : PyVal → Option Tensor
  | .tens t => some t
  | .tup [] => none
  | .tup (t :: _) => some t

/-- Lines 128-135: conditional squeeze, correlation-graph construction,
re-batching through `GeoDataLoader` with `batch_size = len(gnn_graphs)`
(one full batch, so the `for graph_batch in geo_loader` loop runs once),
and one encoder application.  An empty graph list is a runtime error
(`DataLoader` rejects `batch_size=0`, and `gnn_features` would be
unbound), modelled as `none`. -/
def gnnFeatures (env : GnnEnv) (batch_x : Tensor) : Option Tensor :=
  let gnn_graphs := env.build_correlation_graph (condSqueeze batch_x)
  if gnn_graphs.isEmpty then none else some (env.gnn gnn_graphs)

/-- Lines 126-139 (feature-update phase): the whole per-batch GNN
substitution, ending with
`data = (gnn_features, *data[1:]) if isinstance(data, (list, tuple)) and
len(data) > 1 else gnn_features`.  The result is what is passed to
`algorithm.update_a`. -/
def featureGnnSub (env : GnnEnv) (data : PyVal) : Option PyVal :=
  match getBatchX data with
  | none => none
  | some batch_x =>
    match gnnFeatures env batch_x with
    | none => none
    | some gnn_features =>
      match data with
      | .tup elems =>
          if 1 < elems.length then some (.tup (gnn_features :: elems.tail))
          else some (.tens gnn_features)
      | .tens _ => some (.tens gnn_features)

/-- Lines 149-162 (latent-domain-characterization phase): the per-batch
GNN substitution feeding `algorithm.update_d`; transcribed separately
from the source to compare with the other phases. -/
def domainCharGnnSub (env : GnnEnv) (data : PyVal) : Option PyVal :=
  match getBatchX data with
  | none => none
  | some batch_x =>
    match gnnFeatures env batch_x with
    | none => none
    | some gnn_features =>
      match data with
      | .tup elems =>
          if 1 < elems.length then some (.tup (gnn_features :: elems.tail))
          else some (.tens gnn_features)
      | .tens _ => some (.tens gnn_features)

/-- Lines 181-194 (domain-invariant-learning phase): the per-batch GNN
substitution feeding `algorithm.update`; transcribed separately from the
source to compare with the other phases. -/
def invariantGnnSub (env : GnnEnv) (data : PyVal) : Option PyVal :=
  match getBatchX data with
  | none => none
  | some batch_x =>
    match gnnFeatures env batch_x with
    | none => none
    | some gnn_features =>
      match data with
      | .tup elems =>
          if 1 < elems.length then some (.tup (gnn_features :: elems.tail))
          else some (.tens gnn_features)
      | .tens _ => some (.tens gnn_features)

/-- Lines 73-76: `args.batch_size = 32*args.latent_domain_num if
args.latent_domain_num < 6 else 16*args.latent_domain_num`. -/
def derive_batch_size (latent_domain_num : ℤ) : ℤ :=
  if latent_domain_num < 6 then 32 * latent_domain_num
  else 16 * latent_domain_num

/-- An observable step of `main`: a console line printed or an external
call issued, in program order.  `print_environ` / `print(s)` (lines
71-72) are collapsed into `printPreamble` and the `[INFO]` block of the
GNN initialization (lines 100-110) into `printGnnInit`; neither carries
information the claims depend on. -/
inductive Event where
  | printPreamble
  | printGnnInit
  | printRoundHeader (r : Nat)
  | printPhaseHeader (p : Nat)
  | printRowHeader
  | printRow
  | callUpdateA
  | callUpdateD
  | callSetDlabel
  | callUpdate
  | callEval
  | printTargetAcc (q : ℚ)
  | printShapInfo
  | callExplain
  | callPlot
  | printShapSaved
deriving DecidableEq

/-- Where the optional SHAP block (lines 221-226) stops: it runs to the
end, or an exception is raised inside `explain_gnn_with_shap` (line 223)
or inside `plot_shap_summary` (line 225). -/
inductive ShapOutcome where
  | ok
  | failExplain
  | failPlot
deriving DecidableEq, BEq

/-- Lines 120-141, feature-update phase: header lines, then
`local_epoch` inner epochs, each issuing one `update_a` per batch of the
loader and one `print_row` of the last loss dictionary. -/
def featurePhase (L B : Nat) : List Event :=
  Event.printPhaseHeader 0 :: Event.printRowHeader ::
    (List.range L).flatMap
      (fun _ => List.replicate B Event.callUpdateA ++ [Event.printRow])

/-- Lines 143-164, latent-domain-characterization phase: header lines,
then `local_epoch` inner epochs of one `update_d` per batch plus a
`print_row`. -/
def charPhase (L B : Nat) : List Event :=
  Event.printPhaseHeader 1 :: Event.printRowHeader ::
    (List.range L).flatMap
      (fun _ => List.replicate B Event.callUpdateD ++ [Event.printRow])

/-- Lines 168-216, domain-invariant-learning phase: header lines, then
`local_epoch` inner epochs of one `update` per batch, three accuracy
evaluations (train / valid / target, lines 201-208) and a `print_row`. -/
def invPhase (L B : Nat) : List Event :=
  Event.printPhaseHeader 2 :: Event.printRowHeader ::
    (List.range L).flatMap
      (fun _ => List.replicate B Event.callUpdate
        ++ [Event.callEval, Event.callEval, Event.callEval, Event.printRow])

/-- Lines 118-216, one round of the training loop: round header, the
feature-update phase, the characterization phase, the single
`algorithm.set_dlabel(train_loader)` call (line 166), and the
invariant-learning phase. -/
def roundTrace (L B r : Nat) : List Event :=
  Event.printRoundHeader r ::
    (featurePhase L B ++ charPhase L B
      ++ Event.callSetDlabel :: invPhase L B)

/-- Configuration and environment of a run of `main`: the loop bounds,
the number of batches the training loader yields per epoch, the
accuracies the external evaluator returns at round `r`, inner epoch `s`
(valid and target; the train accuracy is printed but never compared),
the `use_gnn` toggle, and where the SHAP block stops. -/
structure RunCfg where
  max_epoch : Nat
  local_epoch : Nat
  numBatches : Nat
  validAcc : Nat → Nat → ℚ
  targetAcc : Nat → Nat → ℚ
  use_gnn : Bool
  shapOutcome : ShapOutcome

/-- Lines 212-214: `if results['valid_acc'] > best_valid_acc:
best_valid_acc = results['valid_acc']; target_acc =
results['target_acc']`.  The state is the pair `(best_valid_acc,
target_acc)`, the measurement `m` the pair `(valid_acc, target_acc)` of
the current inner epoch. -/
def stepBest (st m : ℚ × ℚ) : ℚ × ℚ :=
  if st.1 < m.1 then m else st

/-- The `(best_valid_acc, target_acc)` pair after the full round loop:
initialized `0, 0` at line 80, updated by `stepBest` at every inner
epoch of the invariant-learning phase of every round, in loop order. -/
def runBest (cfg : RunCfg) : ℚ × ℚ :=
  (List.range cfg.max_epoch).foldl
    (fun st r =>
      (List.range cfg.local_epoch).foldl
        (fun st' s => stepBest st' (cfg.validAcc r s, cfg.targetAcc r s))
        st)
    (0, 0)

/-- The `(valid_acc, target_acc)` measurements of all inner epochs of
all rounds, in chronological order. -/
def innerPairs (cfg : RunCfg) : List (ℚ × ℚ) :=
  (List.range cfg.max_epoch).flatMap
    (fun r => (List.range cfg.local_epoch).map
      (fun s => (cfg.validAcc r s, cfg.targetAcc r s)))

/-- With a nonempty round loop, nonempty inner loops and an empty
training loader, the first `print_row(...)` of loss values (line 141)
reads the never-assigned `loss_result_dict`: a NameError aborts the run
inside round 0's feature-update phase. -/
def emptyLoaderCrash (cfg : RunCfg) : Bool :=
  cfg.max_epoch != 0 && cfg.local_epoch != 0 && cfg.numBatches == 0

/-- Lines 222-226: the `[INFO] Running SHAP` line, the
`explain_gnn_with_shap` call, the `plot_shap_summary` call and the final
`[INFO] SHAP summary saved` line, cut short at the point where an
exception is raised. -/
def shapTrace : ShapOutcome → List Event
  | .ok => [Event.printShapInfo, Event.callExplain, Event.callPlot,
      Event.printShapSaved]
  | .failExplain => [Event.printShapInfo, Event.callExplain]
  | .failPlot => [Event.printShapInfo, Event.callExplain, Event.callPlot]

/-- Lines 68-116 before the round loop: the argument/environment prints,
and the GNN initialization `[INFO]` block when `use_gnn` is set. -/
def preTrace (g : Bool) : List Event :=
  Event.printPreamble :: (if g then [Event.printGnnInit] else [])

/-- The observable trace of `main` (lines 67-226) and whether the run
reached its normal end: the preamble, `max_epoch` rounds, the final
`print(f'Target acc: {target_acc:.4f}')` at line 218, then the SHAP
block when `use_gnn` is set (`gnn` is constructed exactly when `use_gnn`
is, so the guard at line 221 is equivalent to `use_gnn`).  An empty
training loader aborts round 0 before `set_dlabel` and before the final
report (see `emptyLoaderCrash`). -/
def mainTrace (cfg : RunCfg) : List Event × Bool :=
  if emptyLoaderCrash cfg then
    (preTrace cfg.use_gnn
      ++ [Event.printRoundHeader 0, Event.printPhaseHeader 0,
          Event.printRowHeader],
     false)
  else
    (preTrace cfg.use_gnn
      ++ (List.range cfg.max_epoch).flatMap
          (fun r => roundTrace cfg.local_epoch cfg.numBatches r)
      ++ Event.printTargetAcc (runBest cfg).2
          :: (if cfg.use_gnn then shapTrace cfg.shapOutcome else []),
     if cfg.use_gnn then cfg.shapOutcome == ShapOutcome.ok else true)

/-- Which events are console lines (as opposed to external calls). -/
def isPrintEvent : Event → Bool
  | .printPreamble | .printGnnInit | .printRoundHeader _
  | .printPhaseHeader _ | .printRowHeader | .printRow
  | .printTargetAcc _ | .printShapInfo | .printShapSaved => true
  | .callUpdateA | .callUpdateD | .callSetDlabel | .callUpdate
  | .callEval | .callExplain | .callPlot => false

/-- Which events belong to the explainability step (lines 221-226). -/
def isShapEvent : Event → Bool
  | .printShapInfo | .callExplain | .callPlot | .printShapSaved => true
  | _ => false

/-- Whether an optional console line is the final target-accuracy
report of line 218. -/
def isTargetReportLine : Option Event → Bool
  | some (.printTargetAcc _) => true
  | _ => false

/-- The decimal digit character for `n % 10`. -/
def digitChar (n : Nat) : Char := Char.ofNat (48 + n % 10)

/-- Four zero-padded decimal digits of `n` (for `n < 10000`). -/
def pad4 (n : Nat) : String :=
  String.mk [digitChar (n / 1000), digitChar (n / 100), digitChar (n / 10),
    digitChar n]

/-- Fixed-point rendering of the `:.4f` format specifier of line 218 for
nonnegative values: round to the fourth decimal and print exactly four
fractional digits.  (Rounding of exact ties differs between rationals
and the IEEE value Python formats; accuracies are modelled as
rationals.) -/
def fmt4 (q : ℚ) : String :=
  ((round (q * 10000)).toNat / 10000).repr
    ++ ("." ++ pad4 ((round (q * 10000)).toNat % 10000))

/-- Line 218: the text of `f'Target acc: {target_acc:.4f}'`. -/
def targetReportText (q : ℚ) : String := "Target acc: " ++ fmt4 q

/-- One batch yielded by the loader handed to `explain_gnn_with_shap`:
a tuple whose first component is a geometric batch (has `to_data_list`)
with further components such as labels, a bare geometric batch, or
already a plain list of graphs (the three cases of lines 28-34). -/
inductive LoaderBatch where
  | tupGeo (gs : List Graph) (rest : List Tensor)
  | geo (gs : List Graph)
  | listData (gs : List Graph)
deriving DecidableEq

/-- Lines 28-34: extract `data_list` from the sampled batch. -/
def to_data_list : LoaderBatch → List Graph
  | .tupGeo gs _ => gs
  | .geo gs => gs
  | .listData gs => gs

/-- What `explain_gnn_with_shap` hands to the attribution machinery:
the `background` list given to `shap.KernelExplainer` (line 51), the
`test_samples` list given to `explainer.shap_values` (line 52), and the
list re-batched into `graph_batch` for visualization (line 55). -/
structure ShapCall where
  background : List Graph
  test_samples : List Graph
  graph_batch : List Graph
deriving DecidableEq

/-- Lines 23-56, `explain_gnn_with_shap`: draw the first batch of the
loader (`next(iter(data_loader))`, a StopIteration on an empty loader),
extract its data list, and use its first `sample_count` graphs as
background, as test samples and as the visualization batch. -/
def explain_gnn_with_shap (data_loader : List LoaderBatch)
    (sample_count : Nat) : Option ShapCall :=
  match data_loader with
  | [] => none
  | batch :: _ =>
      let data_list := to_data_list batch
      some { background := data_list.take sample_count,
             test_samples := data_list.take sample_count,
             graph_batch := data_list.take sample_count }

/-! Concrete fixtures used by witnesses and counterexamples. -/

/-- A concrete graph pipeline: one graph per batch, a fixed embedding. -/
def env0 : GnnEnv :=
  { build_correlation_graph := fun _ => [{ gid := 0 }],
    gnn := fun _ => { shape := [4, 8], payload := 99 } }

/-- A concrete three-element batch tuple `(x, y, d)`. -/
def es0 : List Tensor :=
  [⟨[16, 8, 1, 200], 1⟩, ⟨[16], 2⟩, ⟨[16], 3⟩]

/-- A concrete one-round run with the GNN and the SHAP block enabled. -/
def cfgG : RunCfg :=
  { max_epoch := 1, local_epoch := 1, numBatches := 1,
    validAcc := fun _ _ => 1, targetAcc := fun _ _ => 1,
    use_gnn := true, shapOutcome := ShapOutcome.ok }

/-- The same run with the GNN disabled. -/
def cfgW : RunCfg := { cfgG with use_gnn := false }

/-- A run whose validation accuracy never exceeds 0. -/
def cfgZ : RunCfg :=
  { max_epoch := 2, local_epoch := 2, numBatches := 1,
    validAcc := fun _ _ => 0, targetAcc := fun _ _ => 1,
    use_gnn := false, shapOutcome := ShapOutcome.ok }

/-- C4: for every configuration, `batch_size` is `32*latent_domain_num`
below 6 and `16*latent_domain_num` from 6 on; in particular
`latent_domain_num = 5` yields 160 and `latent_domain_num = 6` yields
96 (train.py lines 73-76). -/
theorem batch_size_derivation :
    (∀ n : ℤ, n < 6 → derive_batch_size n = 32 * n)
    ∧ (∀ n : ℤ, 6 ≤ n → derive_batch_size n = 16 * n)
    ∧ derive_batch_size 5 = 160 ∧ derive_batch_size 6 = 96 := by
  refine ⟨?_, ?_, ?_, ?_⟩
  · intro n h; simp [derive_batch_size, h]
  · intro n h; simp [derive_batch_size, not_lt.mpr h]
  · norm_num [derive_batch_size]
  · norm_num [derive_batch_size]

/-- Witness for `batch_size_derivation` at `latent_domain_num = 5` and
`latent_domain_num = 6`. -/
theorem batch_size_derivation_witness :
    derive_batch_size 5 = 32 * 5 ∧ derive_batch_size 6 = 16 * 6 :=
  ⟨batch_size_derivation.1 5 (by norm_num),
   batch_size_derivation.2.1 6 (by norm_num)⟩

/-- C6: the GNN batch transformations of the feature-update phase
(lines 126-139), the latent-domain-characterization phase (lines
149-162) and the domain-invariant-learning phase (lines 181-194) are
identical functions of the input batch. -/
theorem gnn_substitution_phases_identical (env : GnnEnv) (data : PyVal) :
    featureGnnSub env data = domainCharGnnSub env data
    ∧ domainCharGnnSub env data = invariantGnnSub env data :=
  ⟨rfl, rfl⟩

/-- C5: with graph mode enabled, on a batch tuple with more than one
element the substitution replaces only the first element with the
embedding produced by the graph pipeline; the remaining elements are
passed on unchanged (lines 136-137). -/
theorem gnn_substitution_frame (env : GnnEnv) (t : Tensor)
    (rest : List Tensor) (h : rest ≠ []) (r : PyVal)
    (hr : featureGnnSub env (PyVal.tup (t :: rest)) = some r) :
    ∃ feats : Tensor,
      gnnFeatures env t = some feats ∧ r = PyVal.tup (feats :: rest) := by
  dsimp only [featureGnnSub, getBatchX] at hr
  cases hg : gnnFeatures env t with
  | none => rw [hg] at hr; cases hr
  | some feats =>
      rw [hg] at hr
      dsimp only at hr
      have hc : 1 < (t :: rest).length := by
        cases rest with
        | nil => exact absurd rfl h
        | cons b l => simp
      rw [if_pos hc] at hr
      injection hr with h2
      exact ⟨feats, rfl, h2.symm⟩

/-- Witness for `gnn_substitution_frame` on a concrete `(x, y, d)`
batch. -/
theorem gnn_substitution_frame_witness :
    ∃ feats : Tensor,
      gnnFeatures env0 ⟨[16, 8, 1, 200], 1⟩ = some feats
      ∧ PyVal.tup [⟨[4, 8], 99⟩, ⟨[16], 2⟩, ⟨[16], 3⟩]
          = PyVal.tup (feats :: [⟨[16], 2⟩, ⟨[16], 3⟩]) :=
  gnn_substitution_frame env0 ⟨[16, 8, 1, 200], 1⟩
    [⟨[16], 2⟩, ⟨[16], 3⟩] (List.cons_ne_nil _ _)
    (PyVal.tup [⟨[4, 8], 99⟩, ⟨[16], 2⟩, ⟨[16], 3⟩]) rfl

/-- C9 counterexample: with graph mode enabled, an empty tuple batch is
not passed to `update_a` as a bare embedding: `data[0]` at line 127
raises IndexError before anything is passed at all. -/
theorem empty_batch_counterexample :
    featureGnnSub env0 (PyVal.tup []) = none
    ∧ ¬ ∃ feats : Tensor,
        featureGnnSub env0 (PyVal.tup []) = some (PyVal.tens feats) := by
  refine ⟨rfl, ?_⟩
  rintro ⟨feats, hf⟩
  simp [featureGnnSub, getBatchX] at hf

/-- C9 as amended: with graph mode enabled, if the batch is a bare
tensor `t` or a tuple/list whose only element is `t`, the object passed
to the update method is exactly the bare embedding that the graph
pipeline computes from `t` — the tuple structure is dropped (lines
138-139).  (An empty tuple/list instead raises IndexError before the
update call, see `empty_batch_counterexample`.) -/
theorem bare_embedding_amended (env : GnnEnv) (t : Tensor) (data : PyVal)
    (h : data = PyVal.tens t ∨ data = PyVal.tup [t])
    (r : PyVal) (hr : featureGnnSub env data = some r) :
    ∃ feats : Tensor,
      gnnFeatures env t = some feats ∧ r = PyVal.tens feats := by
  rcases h with rfl | rfl
  · dsimp only [featureGnnSub, getBatchX] at hr
    cases hg : gnnFeatures env t with
    | none => rw [hg] at hr; cases hr
    | some feats =>
        rw [hg] at hr
        dsimp only at hr
        injection hr with h2
        exact ⟨feats, rfl, h2.symm⟩
  · dsimp only [featureGnnSub, getBatchX] at hr
    cases hg : gnnFeatures env t with
    | none => rw [hg] at hr; cases hr
    | some feats =>
        rw [hg] at hr
        dsimp only at hr
        rw [if_neg (by simp)] at hr
        injection hr with h2
        exact ⟨feats, rfl, h2.symm⟩

/-- Witness for `bare_embedding_amended` on a concrete bare-tensor
batch: the object passed on is the pipeline's embedding of that
tensor. -/
theorem bare_embedding_amended_witness :
    ∃ feats : Tensor,
      gnnFeatures env0 ⟨[16, 8, 1, 200], 1⟩ = some feats
      ∧ PyVal.tens ⟨[4, 8], 99⟩ = PyVal.tens feats :=
  bare_embedding_amended env0 ⟨[16, 8, 1, 200], 1⟩
    (PyVal.tens ⟨[16, 8, 1, 200], 1⟩) (Or.inl rfl)
    (PyVal.tens ⟨[4, 8], 99⟩) rfl

/-- C7: the explainability runner uses only the first batch of the
loader, and hands the same `sample_count`-prefix of its data list to the
attribution method as background set, as evaluation set and as the
visualization batch (lines 26, 36-37, 51-55). -/
theorem shap_single_batch_same_sublist (batch : LoaderBatch)
    (rest rest' : List LoaderBatch) (sample_count : Nat) :
    (∃ c : ShapCall,
        explain_gnn_with_shap (batch :: rest) sample_count = some c
        ∧ c.background = (to_data_list batch).take sample_count
        ∧ c.test_samples = c.background
        ∧ c.graph_batch = c.background)
    ∧ explain_gnn_with_shap (batch :: rest) sample_count
        = explain_gnn_with_shap (batch :: rest') sample_count :=
  ⟨⟨_, rfl, rfl, rfl, rfl⟩, rfl⟩

theorem stepBest_fst_le (st m : ℚ × ℚ) : st.1 ≤ (stepBest st m).1 := by
  by_cases h : st.1 < m.1
  · simp only [stepBest, if_pos h]
    exact le_of_lt h
  · simp only [stepBest, if_neg h]
    exact le_rfl

theorem stepBest_fst_le' (st m : ℚ × ℚ) : m.1 ≤ (stepBest st m).1 := by
  by_cases h : st.1 < m.1
  · simp only [stepBest, if_pos h]
    exact le_rfl
  · simp only [stepBest, if_neg h]
    exact le_of_not_lt h

theorem head?_scanl (b : ℚ × ℚ) (l : List (ℚ × ℚ)) :
    (List.scanl stepBest b l).head? = some b := by
  cases l with
  | nil => rfl
  | cons a l => rfl

theorem chain'_scanl_stepBest (l : List (ℚ × ℚ)) :
    ∀ st : ℚ × ℚ,
      List.Chain' (fun a b => a.1 ≤ b.1) (List.scanl stepBest st l) := by
  induction l with
  | nil => intro st; simp
  | cons m l ih =>
      intro st
      rw [List.scanl_cons, List.singleton_append]
      refine List.chain'_cons'.mpr ⟨?_, ih (stepBest st m)⟩
      intro y hy
      rw [head?_scanl] at hy
      simp only [Option.mem_def, Option.some.injEq] at hy
      rw [← hy]
      exact stepBest_fst_le st m

theorem foldl_flatMap_stepBest (l : List Nat) (f : Nat → List (ℚ × ℚ)) :
    ∀ init : ℚ × ℚ,
      (l.flatMap f).foldl stepBest init
        = l.foldl (fun acc r => (f r).foldl stepBest acc) init := by
  induction l with
  | nil => intro init; rfl
  | cons a l ih =>
      intro init
      rw [List.flatMap_cons, List.foldl_append, List.foldl_cons]
      exact ih _

/-- The nested loop fold of `runBest` equals the flat fold over the
chronological list of per-inner-epoch measurements. -/
theorem runBest_eq_foldl (cfg : RunCfg) :
    runBest cfg = (innerPairs cfg).foldl stepBest (0, 0) := by
  unfold runBest innerPairs
  rw [foldl_flatMap_stepBest]
  congr 1
  funext acc r
  rw [List.foldl_map]

/-- C2: across all inner epochs of all rounds, `best_valid_acc` is
non-decreasing, and the `(best_valid_acc, target_acc)` pair is either
left untouched or overwritten in one lock-step assignment with the pair
measured in that same inner epoch, exactly when the measured validation
accuracy strictly exceeds the current best (lines 212-214). -/
theorem best_valid_monotone_lockstep (cfg : RunCfg) :
    runBest cfg = (innerPairs cfg).foldl stepBest (0, 0)
    ∧ List.Chain' (fun a b => a.1 ≤ b.1)
        (List.scanl stepBest (0, 0) (innerPairs cfg))
    ∧ ∀ st m : ℚ × ℚ,
        stepBest st m = st ∨ (st.1 < m.1 ∧ stepBest st m = m) := by
  refine ⟨runBest_eq_foldl cfg, chain'_scanl_stepBest _ _, ?_⟩
  intro st m
  by_cases h : st.1 < m.1
  · exact Or.inr ⟨h, by simp only [stepBest, if_pos h]⟩
  · exact Or.inl (by simp only [stepBest, if_neg h])

theorem foldl_stepBest_no_improve (l : List (ℚ × ℚ)) :
    ∀ st : ℚ × ℚ, (∀ p ∈ l, p.1 ≤ st.1) → l.foldl stepBest st = st := by
  induction l with
  | nil => intro st _; rfl
  | cons m l ih =>
      intro st h
      have hm : m.1 ≤ st.1 := h m (List.mem_cons_self m l)
      have hstep : stepBest st m = st := by
        simp only [stepBest, if_neg (not_lt.mpr hm)]
      rw [List.foldl_cons, hstep]
      exact ih st (fun p hp => h p (List.mem_cons_of_mem m hp))

/-- C10: `best_valid_acc` and `target_acc` change only on strict
improvement of the validation accuracy over the current best (a tie
leaves both untouched), and a run whose validation accuracy never
exceeds the initial best of 0 reports a target accuracy of 0 regardless
of the measured target accuracies (lines 80, 212-214). -/
theorem strict_improvement_only :
    (∀ st m : ℚ × ℚ, ¬ st.1 < m.1 → stepBest st m = st)
    ∧ ∀ cfg : RunCfg,
        (∀ r s, r < cfg.max_epoch → s < cfg.local_epoch →
          cfg.validAcc r s ≤ 0)
        → runBest cfg = (0, 0) := by
  constructor
  · intro st m h
    simp only [stepBest, if_neg h]
  · intro cfg h
    rw [runBest_eq_foldl]
    apply foldl_stepBest_no_improve
    intro p hp
    simp only [innerPairs, List.mem_flatMap, List.mem_map,
      List.mem_range] at hp
    obtain ⟨r, hr, s, hs, hp2⟩ := hp
    rw [← hp2]
    exact h r s hr hs

/-- Witness for `strict_improvement_only`: a tie leaves the state
untouched, and the all-zero-validation run `cfgZ` reports target
accuracy 0 although every measured target accuracy is 1. -/
theorem strict_improvement_only_witness :
    stepBest (0, 0) (0, 1) = (0, 0) ∧ runBest cfgZ = (0, 0) :=
  ⟨strict_improvement_only.1 (0, 0) (0, 1) (lt_irrefl 0),
   strict_improvement_only.2 cfgZ (fun _ _ _ _ => le_refl 0)⟩

/-- C1: in every round's trace, `set_dlabel` occurs exactly once,
strictly after every `update_d` call of that round's characterization
phase and strictly before every `update` call of that round's
invariant-learning phase (train.py lines 118-216; `mainTrace` runs
`roundTrace` once per round). -/
theorem set_dlabel_once_between_phases (L B r : Nat) :
    ∃ pre post,
      roundTrace L B r = pre ++ Event.callSetDlabel :: post
      ∧ Event.callSetDlabel ∉ pre ∧ Event.callSetDlabel ∉ post
      ∧ Event.callUpdate ∉ pre ∧ Event.callUpdateD ∉ post := by
  refine ⟨Event.printRoundHeader r :: (featurePhase L B ++ charPhase L B),
    invPhase L B, ?_, ?_, ?_, ?_, ?_⟩
  · simp [roundTrace, List.append_assoc]
  · simp [featurePhase, charPhase, List.mem_flatMap, List.mem_replicate]
  · simp [invPhase, List.mem_flatMap, List.mem_replicate]
  · simp [featurePhase, charPhase, List.mem_flatMap, List.mem_replicate]
  · simp [invPhase, List.mem_flatMap, List.mem_replicate]

/-- The trace of a run that does not hit the empty-loader NameError. -/
theorem mainTrace_no_crash (cfg : RunCfg)
    (h : emptyLoaderCrash cfg = false) :
    mainTrace cfg
      = (preTrace cfg.use_gnn
          ++ (List.range cfg.max_epoch).flatMap
              (fun r => roundTrace cfg.local_epoch cfg.numBatches r)
          ++ Event.printTargetAcc (runBest cfg).2
              :: (if cfg.use_gnn then shapTrace cfg.shapOutcome else []),
        if cfg.use_gnn then cfg.shapOutcome == ShapOutcome.ok else true) := by
  simp [mainTrace, h]

theorem foldl_stepBest_self_or_mem (l : List (ℚ × ℚ)) :
    ∀ st : ℚ × ℚ, l.foldl stepBest st = st ∨ l.foldl stepBest st ∈ l := by
  induction l with
  | nil => intro st; exact Or.inl rfl
  | cons m l ih =>
      intro st
      rw [List.foldl_cons]
      by_cases h : st.1 < m.1
      · have hs : stepBest st m = m := by simp only [stepBest, if_pos h]
        rw [hs]
        rcases ih m with h1 | h1
        · rw [h1]; exact Or.inr (List.mem_cons_self m l)
        · exact Or.inr (List.mem_cons_of_mem m h1)
      · have hs : stepBest st m = st := by simp only [stepBest, if_neg h]
        rw [hs]
        rcases ih st with h1 | h1
        · exact Or.inl h1
        · exact Or.inr (List.mem_cons_of_mem m h1)

theorem fst_le_foldl_stepBest (l : List (ℚ × ℚ)) :
    ∀ st : ℚ × ℚ, st.1 ≤ (l.foldl stepBest st).1 := by
  induction l with
  | nil => intro st; exact le_rfl
  | cons m l ih =>
      intro st
      rw [List.foldl_cons]
      exact le_trans (stepBest_fst_le st m) (ih (stepBest st m))

theorem mem_fst_le_foldl_stepBest (l : List (ℚ × ℚ)) :
    ∀ st : ℚ × ℚ, ∀ p ∈ l, p.1 ≤ (l.foldl stepBest st).1 := by
  induction l with
  | nil => intro st p hp; cases hp
  | cons m l ih =>
      intro st p hp
      rw [List.foldl_cons]
      rcases List.mem_cons.mp hp with rfl | hp2
      · exact le_trans (stepBest_fst_le' st p)
          (fst_le_foldl_stepBest l (stepBest st p))
      · exact ih (stepBest st m) p hp2

/-- C3 counterexample: the run `cfgG` (graph mode on, SHAP succeeding)
reaches its normal end, yet the final console line is the
`[INFO] SHAP summary saved` message of line 226, not the target-accuracy
report of line 218. -/
theorem final_line_counterexample :
    ((mainTrace cfgG).1.filter isPrintEvent).getLast?
      = some Event.printShapSaved
    ∧ isTargetReportLine (some Event.printShapSaved) = false :=
  ⟨rfl, rfl⟩

/-- C3 as amended: after the round loop, the program reports the target
accuracy recorded in lock-step with the best validation accuracy (the
pair of some inner epoch whose validation accuracy is maximal, or the
initial 0 when no epoch improved on 0), rendered with exactly four
fractional digits; the report is the final console line when graph mode
is disabled — with graph mode enabled the SHAP block prints further
lines after it (see `final_line_counterexample`). -/
theorem final_report_amended (cfg : RunCfg)
    (h : emptyLoaderCrash cfg = false) :
    Event.printTargetAcc (runBest cfg).2 ∈ (mainTrace cfg).1
    ∧ ((∃ p ∈ innerPairs cfg, runBest cfg = p
          ∧ ∀ q ∈ innerPairs cfg, q.1 ≤ p.1)
        ∨ (runBest cfg = (0, 0) ∧ ∀ q ∈ innerPairs cfg, q.1 ≤ 0))
    ∧ (∃ w k, k < 10000
        ∧ fmt4 ((runBest cfg).2) = w ++ ("." ++ pad4 k)
        ∧ (pad4 k).length = 4)
    ∧ (cfg.use_gnn = false →
        ((mainTrace cfg).1.filter isPrintEvent).getLast?
          = some (Event.printTargetAcc (runBest cfg).2)) := by
  have htr := mainTrace_no_crash cfg h
  refine ⟨?_, ?_, ?_, ?_⟩
  · rw [htr]
    simp
  · rcases foldl_stepBest_self_or_mem (innerPairs cfg) (0, 0) with h1 | h1
    · refine Or.inr ⟨(runBest_eq_foldl cfg).trans h1, ?_⟩
      intro q hq
      have h2 := mem_fst_le_foldl_stepBest (innerPairs cfg) (0, 0) q hq
      rw [h1] at h2
      exact h2
    · refine Or.inl ⟨(innerPairs cfg).foldl stepBest (0, 0), h1,
        runBest_eq_foldl cfg, ?_⟩
      intro q hq
      exact mem_fst_le_foldl_stepBest (innerPairs cfg) (0, 0) q hq
  · exact ⟨((round ((runBest cfg).2 * 10000)).toNat / 10000).repr,
      (round ((runBest cfg).2 * 10000)).toNat % 10000,
      Nat.mod_lt _ (by norm_num), rfl, rfl⟩
  · intro hg
    have hfin : (mainTrace cfg).1
        = (preTrace false
            ++ (List.range cfg.max_epoch).flatMap
                (fun r => roundTrace cfg.local_epoch cfg.numBatches r))
          ++ [Event.printTargetAcc (runBest cfg).2] := by
      rw [htr, hg]
      simp
    rw [hfin, List.filter_append]
    have hf : List.filter isPrintEvent
        [Event.printTargetAcc (runBest cfg).2]
        = [Event.printTargetAcc (runBest cfg).2] := rfl
    rw [hf, List.getLast?_concat]

/-- Witness for `final_report_amended` on the concrete no-GNN run
`cfgW`. -/
theorem final_report_amended_witness :
    Event.printTargetAcc (runBest cfgW).2 ∈ (mainTrace cfgW).1
    ∧ ((∃ p ∈ innerPairs cfgW, runBest cfgW = p
          ∧ ∀ q ∈ innerPairs cfgW, q.1 ≤ p.1)
        ∨ (runBest cfgW = (0, 0) ∧ ∀ q ∈ innerPairs cfgW, q.1 ≤ 0))
    ∧ (∃ w k, k < 10000
        ∧ fmt4 ((runBest cfgW).2) = w ++ ("." ++ pad4 k)
        ∧ (pad4 k).length = 4)
    ∧ (cfgW.use_gnn = false →
        ((mainTrace cfgW).1.filter isPrintEvent).getLast?
          = some (Event.printTargetAcc (runBest cfgW).2)) :=
  final_report_amended cfgW rfl

/-- `runBest` does not read the SHAP outcome. -/
theorem runBest_update_shapOutcome (cfg : RunCfg) (o : ShapOutcome) :
    runBest { cfg with shapOutcome := o } = runBest cfg := rfl

theorem shap_not_in_roundTrace (L B r : Nat) :
    Event.printShapInfo ∉ roundTrace L B r
    ∧ Event.callExplain ∉ roundTrace L B r
    ∧ Event.callPlot ∉ roundTrace L B r
    ∧ Event.printShapSaved ∉ roundTrace L B r := by
  refine ⟨?_, ?_, ?_, ?_⟩ <;>
    simp [roundTrace, featurePhase, charPhase, invPhase, List.mem_flatMap,
      List.mem_replicate]

/-- C8: the target-accuracy report of line 218 is printed before the
explainability step starts, with the value fixed by the completed round
loop: whatever point the SHAP block reaches (success, failure inside
`explain_gnn_with_shap`, failure inside `plot_shap_summary`), the trace
up to and including the report is the same, and no explainability event
precedes the report (lines 218-226). -/
theorem target_report_precedes_shap (cfg : RunCfg)
    (h : emptyLoaderCrash cfg = false) :
    ∃ pre : List Event,
      Event.printShapInfo ∉ pre ∧ Event.callExplain ∉ pre
      ∧ Event.callPlot ∉ pre ∧ Event.printShapSaved ∉ pre
      ∧ ∀ o : ShapOutcome, ∃ post : List Event,
          (mainTrace { cfg with shapOutcome := o }).1
            = pre ++ Event.printTargetAcc (runBest cfg).2 :: post := by
  refine ⟨preTrace cfg.use_gnn
      ++ (List.range cfg.max_epoch).flatMap
          (fun r => roundTrace cfg.local_epoch cfg.numBatches r),
    ?_, ?_, ?_, ?_, ?_⟩
  · intro hmem
    rcases List.mem_append.mp hmem with h1 | h1
    · revert h1; cases cfg.use_gnn <;> simp [preTrace]
    · rcases List.mem_flatMap.mp h1 with ⟨rr, _, hr⟩
      exact (shap_not_in_roundTrace _ _ rr).1 hr
  · intro hmem
    rcases List.mem_append.mp hmem with h1 | h1
    · revert h1; cases cfg.use_gnn <;> simp [preTrace]
    · rcases List.mem_flatMap.mp h1 with ⟨rr, _, hr⟩
      exact (shap_not_in_roundTrace _ _ rr).2.1 hr
  · intro hmem
    rcases List.mem_append.mp hmem with h1 | h1
    · revert h1; cases cfg.use_gnn <;> simp [preTrace]
    · rcases List.mem_flatMap.mp h1 with ⟨rr, _, hr⟩
      exact (shap_not_in_roundTrace _ _ rr).2.2.1 hr
  · intro hmem
    rcases List.mem_append.mp hmem with h1 | h1
    · revert h1; cases cfg.use_gnn <;> simp [preTrace]
    · rcases List.mem_flatMap.mp h1 with ⟨rr, _, hr⟩
      exact (shap_not_in_roundTrace _ _ rr).2.2.2 hr
  · intro o
    have ho : emptyLoaderCrash { cfg with shapOutcome := o } = false := h
    refine ⟨if cfg.use_gnn then shapTrace o else [], ?_⟩
    have htr := mainTrace_no_crash { cfg with shapOutcome := o } ho
    rw [htr]
    simp [runBest_update_shapOutcome, List.append_assoc]

/-- Witness for `target_report_precedes_shap` on the concrete
GNN-enabled run `cfgG`. -/
theorem target_report_precedes_shap_witness :
    ∃ pre : List Event,
      Event.printShapInfo ∉ pre ∧ Event.callExplain ∉ pre
      ∧ Event.callPlot ∉ pre ∧ Event.printShapSaved ∉ pre
      ∧ ∀ o : ShapOutcome, ∃ post : List Event,
          (mainTrace { cfgG with shapOutcome := o }).1
            = pre ++ Event.printTargetAcc (runBest cfgG).2 :: post :=
  target_report_precedes_shap cfgG rfl

end TrainPy
